import Mathlib

/-!
Shallow embedding of the booktop TUI core: the entity layer (`book.rs`,
`books.rs`), the filter predicate (`filter.rs`), and the interactive state
machines of the main browser and the two dialogs (`tui.rs`).

Machine integers (`usize`/`isize`) are modelled as `Nat`/`Int`; operations
that can panic in Rust (index out of bounds, arithmetic overflow, drawing
from an empty random range) return `Option`, with `none` standing for the
abnormal termination. Rust's `String` is modelled as Lean's `String`;
Rust's byte-lexicographic `String::cmp` coincides with codepoint
lexicographic comparison of the underlying `List Char` because UTF-8
preserves codepoint order. `BTreeMap<usize, Book>` is modelled as an
association list whose keys are strictly ascending (`Bookcase.WF`);
`HashSet` fields that are used only through membership are modelled as
lists.
-/

namespace Booktop

/-- `Read` enum from `book.rs` (reading status). -/
inductive Read where
  | Read
  | Reading
  | Stopped
  | Unread
deriving DecidableEq, Repr

/-- `Read::all()` from `book.rs`: the four states in source order. -/
def Read.all : List Booktop.Read := [.Read, .Reading, .Stopped, .Unread]

/-- `Sorting` enum from `book.rs`. -/
inductive Sorting where
  | Title
  | Author
deriving DecidableEq, Repr

/-- `Book` struct from `book.rs`. `tags: HashSet<String>` is modelled as a
list used only through membership. -/
structure Book where
  title : String
  author : String
  read : Read
  tags : List String
deriving DecidableEq, Repr

/-- `Book::read_state` from `book.rs`. -/
def Book.read_state (b : Book) : Read := b.read

/-- The field compared by `Book::cmp_by`, as the character list underlying
the string (Rust compares the UTF-8 bytes; byte order equals codepoint
order). -/
def sort_key (s : Sorting) (b : Book) : List Char :=
  match s with
  | .Title => b.title.data
  | .Author => b.author.data

/-- `Book::cmp_by` from `book.rs`: `String::cmp` on the chosen field. -/
def Book.cmp_by (b1 b2 : Book) (s : Sorting) : Ordering :=
  match s with
  | .Title => compareOfLessAndEq b1.title.data b2.title.data
  | .Author => compareOfLessAndEq b1.author.data b2.author.data

/-- `Bookcase` struct from `books.rs`. The `BTreeMap<usize, Book>` is an
association list in strictly ascending key order (see `Bookcase.WF`). -/
structure Bookcase where
  name : String
  books : List (Nat × Book)
deriving DecidableEq, Repr

/-- The `BTreeMap` representation invariant: keys strictly ascending. -/
def Bookcase.WF (bc : Bookcase) : Prop :=
  bc.books.Pairwise fun p q => p.1 < q.1

instance (bc : Bookcase) : Decidable bc.WF := by
  unfold Bookcase.WF
  exact List.instDecidablePairwise bc.books

/-- `bookcase.books.keys()` (used by `App::new` and `App::reset_visible`). -/
def Bookcase.keyList (bc : Bookcase) : List Nat := bc.books.map Prod.fst

/-- `Bookcase::get_book` from `books.rs`. -/
def Bookcase.get_book (bc : Bookcase) (id : Nat) : Option Book :=
  bc.books.lookup id

/-- `Bookcase::get_books_by_keys` from `books.rs`: iterates the map (in
ascending key order) and keeps the entries whose key occurs in `keys`. -/
def Bookcase.get_books_by_keys (bc : Bookcase) (keys : List Nat) : List (Nat × Book) :=
  bc.books.filter fun p => keys.contains p.1

/-- Transcribed from the spec's interface sentence (the source has no such
function; `get_books_by_keys` above is the code's version): one optional
`(id, Book)` pair per input id, absent ids yielding `none`, in input
order. Used only to compare the spec's words with the code. -/
def get_books_by_ids_of_spec (bc : Bookcase) (ids : List Nat) : List (Option (Nat × Book)) :=
  ids.map fun k => (bc.get_book k).map fun b => (k, b)

/-- ASCII lower-casing of one character (`u8::to_ascii_lowercase`,
lifted to the codepoint; only `A`–`Z` change). -/
def asciiLowerChar (c : Char) : Char :=
  if 'A' ≤ c ∧ c ≤ 'Z' then Char.ofNat (c.toNat + 32) else c

/-- `string_match` from `filter.rs`: `str::eq_ignore_ascii_case`. -/
def string_match (s1 s2 : String) : Bool :=
  s1.data.map asciiLowerChar == s2.data.map asciiLowerChar

/-- `Filter` struct from `filter.rs` (`HashSet<Read>` as a membership
list). -/
structure Filter where
  author_match : List String
  read : List Read
  tags : List String
deriving DecidableEq, Repr

/-- `Filter::match_book` from `filter.rs`. -/
def Filter.match_book (f : Filter) (b : Book) : Bool :=
  (f.author_match.isEmpty || f.author_match.any fun a => string_match a b.author)
    && (f.read.isEmpty || f.read.contains b.read_state)
    && (f.tags.isEmpty || f.tags.any fun t => b.tags.contains t)

/-- `Filter::filter_books` from `filter.rs` (specialised to the id/book
pairs the TUI passes it). -/
def Filter.filter_books (f : Filter) (books : List (Nat × Book)) : List (Nat × Book) :=
  books.filter fun p => f.match_book p.2

/-- Free function `move_by` from `tui.rs`:
`match i.saturating_add_signed(δ) >= l { true => l - 1, false => ... }`.
When `l = 0` the `true` branch is always taken (a saturating sum is `≥ 0`)
and `l - 1` overflows `usize`: modelled as `none`. The saturation of the
sum at `usize::MAX` is invisible here because the comparison with `l` and
the value returned in the `false` branch agree with the unbounded sum. -/
def move_by (i : Nat) (δ : Int) (l : Nat) : Option Nat :=
  if ((i : Int) + δ).toNat ≥ l then
    if l = 0 then none else some (l - 1)
  else
    some ((i : Int) + δ).toNat

/-- The browser state from `tui.rs` (`App`): the visible id list and
`TableState::selected` as the cursor. The borrowed `bookcase` field is
passed explicitly to the operations; the `popup` field is control flow of
the render loop and is not part of the navigable state. -/
structure App where
  visible_books : List Nat
  cursor : Option Nat
deriving DecidableEq, Repr

/-- `App::new` from `tui.rs`: all keys visible, selection `Some(0)`
(also when the bookcase is empty). -/
def App.new (bc : Bookcase) : App :=
  { visible_books := bc.keyList, cursor := some 0 }

/-- `App::move_by` from `tui.rs`: `if let Some(i) = selected` then apply
the free `move_by` with the visible length. -/
def App.move_by (app : App) (δ : Int) : Option App :=
  match app.cursor with
  | none => some app
  | some i =>
    (Booktop.move_by i δ app.visible_books.length).map fun j =>
      { app with cursor := some j }

/-- `App::move_to` from `tui.rs`: `match i.cmp(&0)` — negative indexes
from the end (`saturating_add_signed`, clamped at 0), zero selects the
first row, positive selects row `i - 1`. -/
def App.move_to (app : App) (i : Int) : App :=
  if i < 0 then
    { app with cursor := some ((app.visible_books.length : Int) + i).toNat }
  else if i = 0 then
    { app with cursor := some 0 }
  else
    { app with cursor := some (i - 1).toNat }

/-- `App::filter_currently_visible` from `tui.rs`: fetch the visible
entries from the bookcase, keep those matching the filter, and make their
ids the new visible list. (The `.flatten()` iterator adaptor in the source
is the identity on the present pairs `get_books_by_keys` yields.) -/
def App.filter_currently_visible (app : App) (bc : Bookcase) (f : Filter) : App :=
  { app with
    visible_books := (f.filter_books (bc.get_books_by_keys app.visible_books)).map Prod.fst }

/-- `App::reset_visible` from `tui.rs`. -/
def App.reset_visible (app : App) (bc : Bookcase) : App :=
  { app with visible_books := bc.keyList }

/-- The comparator relation `sort_by` sorts with: `cmp_by` not `Greater`,
i.e. the sort field is `≤`. -/
def sortRel (s : Sorting) (p q : Nat × Book) : Prop :=
  p.2.cmp_by q.2 s ≠ Ordering.gt

instance (s : Sorting) : DecidableRel (sortRel s) := fun p q => by
  unfold sortRel
  infer_instance

/-- `App::sort_by` from `tui.rs`: fetch the visible entries, sort them
with `Book::cmp_by` (Rust's stable sort, modelled by insertion sort, which
is likewise stable), and make their keys the new visible list. -/
def App.sort_by (app : App) (bc : Bookcase) (s : Sorting) : App :=
  { app with
    visible_books :=
      (List.insertionSort (sortRel s) (bc.get_books_by_keys app.visible_books)).map Prod.fst }

/-- The `Char('?')` branch of `run_tui` in `tui.rs`:
`rand::thread_rng().gen_range(0..len)` followed by `move_to`. There is no
emptiness check; `gen_range` panics when the range `0..len` is empty,
modelled as `none`. `n` is the value the generator draws (any `n < len`
can occur). -/
def random_jump (app : App) (n : Nat) : Option App :=
  if app.visible_books.length = 0 then none
  else some (app.move_to (n : Int))

/-- `SelectableList<T>` from `tui.rs`. The ratatui `ListState` field only
drives highlighting and is dropped; `len` is kept as in the source. -/
structure SelectableList (T : Type) where
  values : List T
  selected : List Bool
  cursor_position : Nat
  len : Nat
deriving DecidableEq, Repr

/-- `SelectableList::new` from `tui.rs`. -/
def SelectableList.new {T : Type} (values : List T) : SelectableList T :=
  { values := values
    selected := List.replicate values.length false
    cursor_position := 0
    len := values.length }

/-- `SelectableList::move_by` from `tui.rs` (shares the free `move_by`,
hence also its `len = 0` overflow, modelled as `none`). -/
def SelectableList.move_by {T : Type} (sl : SelectableList T) (δ : Int) :
    Option (SelectableList T) :=
  (Booktop.move_by sl.cursor_position δ sl.len).map fun j =>
    { sl with cursor_position := j }

/-- `SelectionChange` enum from `tui.rs`. -/
inductive SelectionChange where
  | Select
  | Deselect
  | Toggle
deriving DecidableEq, Repr

/-- `SelectableList::change_selection` from `tui.rs`:
`if let Some(b) = self.selected.get_mut(self.cursor_position)`. -/
def SelectableList.change_selection {T : Type} (sl : SelectableList T)
    (switch : SelectionChange) : SelectableList T :=
  match sl.selected.get? sl.cursor_position with
  | none => sl
  | some b =>
    { sl with
      selected :=
        sl.selected.set sl.cursor_position
          (match switch with
           | .Select => true
           | .Deselect => false
           | .Toggle => !b) }

/-- `FilterPopupField` enum from `tui.rs`. -/
inductive FilterPopupField where
  | Author
  | Read
  | Tags
deriving DecidableEq, Repr

/-- `FilterPopupField::next` from `tui.rs`. -/
def FilterPopupField.next (f : FilterPopupField) : FilterPopupField :=
  match f with
  | .Author => .Read
  | .Read => .Tags
  | .Tags => .Author

/-- `FilterPopupApp` from `tui.rs` (the author list's `Rc<str>` values
are plain strings here). -/
structure FilterPopupApp where
  authors : SelectableList String
  read : SelectableList Read
  tags : SelectableList String
  current_field : FilterPopupField
deriving DecidableEq, Repr

/-- `FilterPopupApp::into_filter` from `tui.rs`: authors and read states
become the selected subsequences via `zip`/`filter_map`; the `tags` field
of the built `Filter` is `Vec::new()`. -/
def FilterPopupApp.into_filter (app : FilterPopupApp) : Filter :=
  { author_match :=
      (app.authors.values.zip app.authors.selected).filterMap fun ab =>
        if ab.2 then some ab.1 else none
    read :=
      (app.read.values.zip app.read.selected).filterMap fun rb =>
        if rb.2 then some rb.1 else none
    tags := [] }

/-- `BookPopupField` enum from `tui.rs`. -/
inductive BookPopupField where
  | Title
  | Author
  | Read
  | Tags
deriving DecidableEq, Repr

/-- `SEPARATOR_CHAR` from `tui.rs`. -/
def SEPARATOR_CHAR : Char := ','

/-- `BookPopupApp` from `tui.rs`: the edited clone of the book, the
in-progress tag strings, and the focused field. -/
structure BookPopupApp where
  book : Book
  tags : List String
  current_field : BookPopupField
deriving DecidableEq, Repr

/-- `BookPopupApp::tab` from `tui.rs`: Title → Author → Read → Tags →
Title. -/
def BookPopupApp.tab (app : BookPopupApp) : BookPopupApp :=
  { app with
    current_field :=
      match app.current_field with
      | .Title => .Author
      | .Author => .Read
      | .Read => .Tags
      | .Tags => .Title }

/-- Rust `String::pop`: remove the last character. -/
def strDropLast (s : String) : String := ⟨s.data.dropLast⟩

/-- `BookPopupApp::backspace` from `tui.rs`. For `Tags`: pop the last tag
string; pop its last character; push it back only if it still had a
character to pop (an emptied tag is dropped). `Read` is a no-op. -/
def BookPopupApp.backspace (app : BookPopupApp) : BookPopupApp :=
  match app.current_field with
  | .Author => { app with book := { app.book with author := strDropLast app.book.author } }
  | .Title => { app with book := { app.book with title := strDropLast app.book.title } }
  | .Tags =>
    match app.tags.getLast? with
    | none => app
    | some t =>
      if t.data = [] then { app with tags := app.tags.dropLast }
      else { app with tags := app.tags.dropLast ++ [strDropLast t] }
  | .Read => app

/-- `BookPopupApp::input` from `tui.rs`. For `Tags`: the separator closes
the current tag and opens a new empty one; other characters extend the
last tag; with no tag yet, start one. `Read` is a no-op. -/
def BookPopupApp.input (app : BookPopupApp) (value : Char) : BookPopupApp :=
  match app.current_field with
  | .Author => { app with book := { app.book with author := app.book.author.push value } }
  | .Title => { app with book := { app.book with title := app.book.title.push value } }
  | .Tags =>
    match app.tags.getLast? with
    | some t =>
      if value = SEPARATOR_CHAR then
        { app with tags := app.tags.dropLast ++ [t, ""] }
      else
        { app with tags := app.tags.dropLast ++ [t.push value] }
    | none => { app with tags := [value.toString] }
  | .Read => app

/-! Concrete fixtures (the two books of the spec's scenario, plus an empty
bookcase) used by the counterexamples and witnesses below. -/

/-- Scenario book 1: Great Expectations. -/
def bGreat : Book :=
  { title := "Great Expectations", author := "Charles Dickens", read := .Unread, tags := [] }

/-- Scenario book 2: Journey to the Center of the Earth. -/
def bJourney : Book :=
  { title := "Journey to the Center of the Earth", author := "Jules Verne"
    read := .Unread, tags := ["scifi"] }

/-- The spec's scenario bookcase `{1: Great Expectations, 2: Journey}`. -/
def bcScenario : Bookcase := { name := "Bookcase", books := [(1, bGreat), (2, bJourney)] }

/-- An empty bookcase. -/
def bcEmpty : Bookcase := { name := "Bookcase", books := [] }

/-- The Filter with all three criterion sets empty. -/
def fAll : Filter := { author_match := [], read := [], tags := [] }

/-- A Filter whose only author criterion differs from a book's author by
ASCII case. -/
def fLower : Filter := { author_match := ["jules verne"], read := [], tags := [] }

/-- A filter-dialog state in which the single tag "scifi" has been
toggled selected. -/
def fpScifi : FilterPopupApp :=
  { authors := SelectableList.new []
    read := SelectableList.new Read.all
    tags := (SelectableList.new ["scifi"]).change_selection .Toggle
    current_field := .Tags }

/-! General lemmas about the embedded operations. -/

/-- `List.contains` agrees with membership (lawful `BEq`). -/
theorem contains_true_iff {α : Type} [BEq α] [LawfulBEq α] (l : List α) (a : α) :
    l.contains a = true ↔ a ∈ l := by
  simp [List.contains, List.elem_iff]

/-- On an association list with strictly ascending keys, `lookup`
succeeds exactly on the listed pairs. -/
theorem lookup_eq_some_iff_mem {β : Type} (l : List (Nat × β))
    (hnd : l.Pairwise fun p q => p.1 < q.1) (k : Nat) (b : β) :
    l.lookup k = some b ↔ (k, b) ∈ l := by
  induction l with
  | nil => simp
  | cons hd tl ih =>
    obtain ⟨k0, b0⟩ := hd
    rw [List.pairwise_cons] at hnd
    rw [List.lookup_cons, List.mem_cons]
    by_cases hk : k = k0
    · subst hk
      simp only [beq_self_eq_true]
      constructor
      · rintro h
        exact Or.inl (by injection h with h; rw [h])
      · rintro (h | h)
        · injection h with h1 h2; rw [h2]
        · exact absurd (hnd.1 _ h) (lt_irrefl k)
    · have hbeq : (k == k0) = false := beq_eq_false_iff_ne.mpr hk
      rw [hbeq]
      rw [ih hnd.2]
      constructor
      · exact Or.inr
      · rintro (h | h)
        · exact absurd (congrArg Prod.fst h) hk
        · exact h

/-- Two entries of a well-formed bookcase with the same key are the same
entry. -/
theorem key_injective (bc : Bookcase) (hwf : bc.WF) {p q : Nat × Book}
    (hp : p ∈ bc.books) (hq : q ∈ bc.books) (hk : p.1 = q.1) : p = q := by
  have h1 : bc.books.lookup p.1 = some p.2 :=
    (lookup_eq_some_iff_mem bc.books hwf p.1 p.2).mpr (by rwa [Prod.mk.eta])
  have h2 : bc.books.lookup p.1 = some q.2 := by
    rw [hk]
    exact (lookup_eq_some_iff_mem bc.books hwf q.1 q.2).mpr (by rwa [Prod.mk.eta])
  have := h1.symm.trans h2
  injection this with h3
  exact Prod.ext hk h3

/-- `match_book` characterised dimension by dimension. -/
theorem match_book_iff (f : Filter) (b : Book) :
    f.match_book b = true ↔
      (f.author_match = [] ∨ ∃ a ∈ f.author_match, string_match a b.author = true)
        ∧ (f.read = [] ∨ b.read_state ∈ f.read)
        ∧ (f.tags = [] ∨ ∃ t ∈ f.tags, t ∈ b.tags) := by
  simp only [Filter.match_book, Bool.and_eq_true, Bool.or_eq_true, List.isEmpty_iff,
    List.any_eq_true, contains_true_iff]
  exact and_assoc

/-- C7 (amended): the match predicate is the conjunction over the three
dimensions; a dimension with an empty criterion set matches every Book;
a non-empty read-state set requires exact membership, a non-empty tag set
requires some criterion tag to be among the Book's tags, and a non-empty
author set requires some criterion string to equal the Book's author
under ASCII-case-insensitive comparison (not exact membership); a Filter
with all three sets empty matches every Book. -/
theorem match_book_dimension_semantics (f : Filter) (b : Book) :
    (f.match_book b = true ↔
        (f.author_match = [] ∨ ∃ a ∈ f.author_match, string_match a b.author = true)
          ∧ (f.read = [] ∨ b.read_state ∈ f.read)
          ∧ (f.tags = [] ∨ ∃ t ∈ f.tags, t ∈ b.tags))
      ∧ (f.author_match = [] → f.read = [] → f.tags = [] → f.match_book b = true) := by
  refine ⟨match_book_iff f b, fun h1 h2 h3 => ?_⟩
  rw [match_book_iff]
  exact ⟨Or.inl h1, Or.inl h2, Or.inl h3⟩

/-- C7 witness: the all-empty filter matches the scenario book. -/
theorem match_book_dimension_semantics_witness :
    fAll.author_match = [] ∧ fAll.read = [] ∧ fAll.tags = [] ∧
      fAll.match_book bGreat = true :=
  ⟨rfl, rfl, rfl, (match_book_dimension_semantics fAll bGreat).2 rfl rfl rfl⟩

/-- C10: with a non-empty author criterion set, the author dimension
matches exactly when some criterion string equals the Book's author under
ASCII-case-insensitive comparison (`string_match`, the embedding of
`eq_ignore_ascii_case`), while the read-state and tag dimensions use
exact membership. -/
theorem author_match_ascii_case_insensitive (f : Filter) (b : Book)
    (h : f.author_match ≠ []) :
    f.match_book b = true ↔
      (∃ a ∈ f.author_match, string_match a b.author = true)
        ∧ (f.read = [] ∨ b.read_state ∈ f.read)
        ∧ (f.tags = [] ∨ ∃ t ∈ f.tags, t ∈ b.tags) := by
  rw [match_book_iff, or_iff_right h]

/-- C10 witness: the criterion "jules verne" matches the author
"Jules Verne" and with it the scenario book. -/
theorem author_match_ascii_case_insensitive_witness :
    fLower.author_match ≠ [] ∧ string_match "jules verne" "Jules Verne" = true ∧
      (fLower.match_book bJourney = true ↔
        (∃ a ∈ fLower.author_match, string_match a bJourney.author = true)
          ∧ (fLower.read = [] ∨ bJourney.read_state ∈ fLower.read)
          ∧ (fLower.tags = [] ∨ ∃ t ∈ fLower.tags, t ∈ bJourney.tags)) :=
  ⟨by decide, by decide, author_match_ascii_case_insensitive fLower bJourney (by decide)⟩

/-- C1: evaluating the code at the failing input — with the tag "scifi"
selected in the tags list, `into_filter` still returns a `Filter` whose
tag criterion set is empty (the selected tags are discarded), while the
author and read lists of the same dialog state are the ones converted. -/
theorem into_filter_drops_selected_tag :
    fpScifi.tags.values = ["scifi"] ∧ fpScifi.tags.selected = [true] ∧
      fpScifi.into_filter.tags = [] := by
  decide

/-- C2: evaluating the code at the failing input — with an empty
VisibleSet and the initial cursor `Some(0)`, `App::move_by(1)` reaches
`l - 1` with `l = 0`, a `usize` overflow (modelled as `none`), instead of
the no-op the claim states. -/
theorem move_by_on_empty_visible_aborts :
    App.move_by { visible_books := [], cursor := some 0 } 1 = none := by
  decide

/-- C3: evaluating the code at the failing input — the `?` handler draws
`gen_range(0..len)` without checking emptiness, and with an empty
VisibleSet the empty-range draw aborts (modelled as `none`) instead of
being skipped as the claim states. -/
theorem random_jump_on_empty_visible_aborts :
    random_jump { visible_books := [], cursor := some 0 } 0 = none := by
  decide

/-- C4 counterexample: `get_books_by_keys` does not return one optional
pair per input id in input order — for the input `[2, 1, 9]` over the
scenario bookcase it returns the two present pairs in ascending bookcase
order (and nothing for the absent id 9), not `[some (2, _), some (1, _),
none]` as the claim would have it. -/
theorem get_books_by_keys_not_one_per_input_id :
    (bcScenario.get_books_by_keys [2, 1, 9]).map some ≠
      get_books_by_ids_of_spec bcScenario [2, 1, 9] := by
  decide

/-- C5 counterexample: applying the all-empty filter (which matches every
book) to the visible list `[2, 1]` yields `[1, 2]` — the bookcase's key
order — which is not an order-preserving subsequence of the prior visible
list, refuting the claim's order-preservation clause. -/
theorem filter_visible_not_sublist_of_prior :
    (App.filter_currently_visible { visible_books := [2, 1], cursor := some 0 }
        bcScenario fAll).visible_books = [1, 2] ∧
      ¬ List.Sublist
        (App.filter_currently_visible { visible_books := [2, 1], cursor := some 0 }
          bcScenario fAll).visible_books [2, 1] := by
  decide

/-- C6 counterexample: the initial state over the empty bookcase is a
reachable state whose VisibleSet is empty yet whose cursor is `Some(0)`,
not absent — it aliases the out-of-range position 0. -/
theorem initial_cursor_present_on_empty :
    (App.new bcEmpty).visible_books = [] ∧ (App.new bcEmpty).cursor = some 0 := by
  decide

/-- C7 counterexample: the author dimension does not require exact
membership — the filter with author criterion set `{"jules verne"}`
matches the book whose author is `"Jules Verne"`, although that author
string is not a member of the criterion set. -/
theorem author_dimension_not_exact_membership :
    fLower.match_book bJourney = true ∧ "Jules Verne" ∉ fLower.author_match := by
  decide

/-- C4 (amended): `get_books_by_keys` returns exactly the `(id, Book)`
pairs of the bookcase whose id occurs in the input list — one per
matching bookcase entry — in the bookcase's ascending id order; input ids
absent from the bookcase contribute nothing (there is no per-input
optional slot, and the input order is not preserved). -/
theorem get_books_by_keys_present_ascending (bc : Bookcase) (ids : List Nat) (hwf : bc.WF) :
    (∀ k b, (k, b) ∈ bc.get_books_by_keys ids ↔ k ∈ ids ∧ bc.get_book k = some b)
      ∧ (bc.get_books_by_keys ids).Pairwise fun p q => p.1 < q.1 := by
  constructor
  · intro k b
    rw [Bookcase.get_books_by_keys, List.mem_filter, Bookcase.get_book,
      lookup_eq_some_iff_mem bc.books hwf]
    constructor
    · rintro ⟨h1, h2⟩
      exact ⟨(contains_true_iff ids k).mp h2, h1⟩
    · rintro ⟨h1, h2⟩
      exact ⟨h2, (contains_true_iff ids k).mpr h1⟩
  · exact List.Pairwise.sublist (List.filter_sublist _) hwf

/-- C4 witness: the characterisation applied to the scenario bookcase and
the id list `[2, 1, 9]`. -/
theorem get_books_by_keys_present_ascending_witness :
    bcScenario.WF ∧
      ((1, bGreat) ∈ bcScenario.get_books_by_keys [2, 1, 9] ↔
        1 ∈ [2, 1, 9] ∧ bcScenario.get_book 1 = some bGreat) :=
  ⟨by decide, (get_books_by_keys_present_ascending bcScenario [2, 1, 9] (by decide)).1 1 bGreat⟩

/-- Fetching all keys of the bookcase returns all its entries. -/
theorem get_books_by_keys_keyList (bc : Bookcase) :
    bc.get_books_by_keys bc.keyList = bc.books := by
  rw [Bookcase.get_books_by_keys]
  apply List.filter_eq_self.mpr
  intro p hp
  exact (contains_true_iff _ _).mpr (List.mem_map_of_mem Prod.fst hp)

/-- For an entry of a well-formed bookcase, its key occurs among the ids
kept by a filter exactly when the entry itself passes the filter. -/
theorem mem_map_fst_filter_iff (bc : Bookcase) (hwf : bc.WF) (pred : Nat × Book → Bool)
    {p : Nat × Book} (hp : p ∈ bc.books) :
    p.1 ∈ (bc.books.filter pred).map Prod.fst ↔ pred p = true := by
  constructor
  · intro h
    rw [List.mem_map] at h
    obtain ⟨q, hq, hqk⟩ := h
    rw [List.mem_filter] at hq
    obtain ⟨hq1, hq2⟩ := hq
    rwa [key_injective bc hwf hp hq1 hqk.symm]
  · intro h
    exact List.mem_map_of_mem Prod.fst (List.mem_filter.mpr ⟨hp, h⟩)

/-- C5 (amended): applying a Filter recomputes the VisibleSet as the
subsequence of the bookcase's ascending id sequence whose ids are
currently visible and whose Book matches the predicate — membership
narrows to a subset of the currently visible ids, but the resulting order
is the bookcase's id order, not the prior VisibleSet order; and starting
from the full id set, applying Filter A and then Filter B yields the same
VisibleSet as filtering the full id set by the conjunction of the two
predicates. -/
theorem filter_visible_narrows_and_composes (bc : Bookcase) (app : App) (f g : Filter)
    (hwf : bc.WF) :
    (∀ k ∈ (app.filter_currently_visible bc f).visible_books, k ∈ app.visible_books)
      ∧ List.Sublist (app.filter_currently_visible bc f).visible_books bc.keyList
      ∧ (((App.new bc).filter_currently_visible bc f).filter_currently_visible bc g).visible_books
          = (bc.books.filter fun p => f.match_book p.2 && g.match_book p.2).map Prod.fst := by
  refine ⟨?_, ?_, ?_⟩
  · intro k hk
    simp only [App.filter_currently_visible, Filter.filter_books,
      Bookcase.get_books_by_keys, List.mem_map, List.mem_filter] at hk
    obtain ⟨p, ⟨⟨hpb, hpc⟩, hpm⟩, rfl⟩ := hk
    exact (contains_true_iff _ _).mp hpc
  · simp only [App.filter_currently_visible, Filter.filter_books, Bookcase.get_books_by_keys,
      Bookcase.keyList]
    exact List.Sublist.map Prod.fst ((List.filter_sublist _).trans (List.filter_sublist _))
  · have h2 : bc.get_books_by_keys ((bc.books.filter fun p => f.match_book p.2).map Prod.fst)
        = bc.books.filter fun p => f.match_book p.2 := by
      rw [Bookcase.get_books_by_keys]
      apply List.filter_congr
      intro p hp
      have hiff := mem_map_fst_filter_iff bc hwf (fun p => f.match_book p.2) hp
      rw [← contains_true_iff] at hiff
      cases hcon : ((bc.books.filter fun p => f.match_book p.2).map Prod.fst).contains p.1 with
      | true => exact (hiff.mp hcon).symm
      | false =>
        cases hm : f.match_book p.2 with
        | true => exact absurd (hiff.mpr hm) (by rw [hcon]; exact Bool.false_ne_true)
        | false => rfl
    show List.map Prod.fst
        (List.filter (fun p => g.match_book p.2)
          (bc.get_books_by_keys
            (List.map Prod.fst
              (List.filter (fun p => f.match_book p.2) (bc.get_books_by_keys bc.keyList)))))
        = _
    rw [get_books_by_keys_keyList, h2, List.filter_filter]
    exact congrArg (List.map Prod.fst) (List.filter_congr fun p hp => Bool.and_comm _ _)

/-- C5 witness: the composition equation for the scenario bookcase,
applying the all-empty filter and then the case-insensitive author
filter. -/
theorem filter_visible_narrows_and_composes_witness :
    bcScenario.WF ∧
      (((App.new bcScenario).filter_currently_visible bcScenario fAll).filter_currently_visible
          bcScenario fLower).visible_books
        = (bcScenario.books.filter fun p => fAll.match_book p.2 && fLower.match_book p.2).map
            Prod.fst :=
  ⟨by decide,
    (filter_visible_narrows_and_composes bcScenario
      { visible_books := [2, 1], cursor := some 0 } fAll fLower (by decide)).2.2⟩

/-- When the free `move_by` completes (no overflow), its result is below
the length. -/
theorem move_by_some_lt (i : Nat) (δ : Int) (l j : Nat) (h : move_by i δ l = some j) :
    j < l := by
  unfold move_by at h
  split at h
  · split at h
    · exact absurd h (by simp)
    · injection h with h
      omega
  · injection h with h
    omega

/-- C6 (amended): the cursor is always present, never absent: the initial
state has cursor index 0 even when the VisibleSet is empty; when the
VisibleSet is non-empty, a completed `move_by`, `move_to(-1)` (the `G`
key), and a completed random jump all leave the cursor at an index in
`[0, len(VisibleSet))`; and filter application, reset, and sort leave the
cursor index unchanged — so after a narrowing filter the cursor can alias
an out-of-range position. -/
theorem cursor_behavior (bc : Bookcase) (app app2 app3 : App) (δ : Int) (i n : Nat)
    (f : Filter) (s : Sorting)
    (hi : app.cursor = some i)
    (hlen : 0 < app.visible_books.length)
    (hn : n < app.visible_books.length)
    (hmv : app.move_by δ = some app2)
    (hrj : random_jump app n = some app3) :
    (App.new bc).cursor = some 0
      ∧ (∃ j, app2.cursor = some j ∧ j < app2.visible_books.length)
      ∧ (∃ j, (app.move_to (-1)).cursor = some j ∧ j < (app.move_to (-1)).visible_books.length)
      ∧ (∃ j, app3.cursor = some j ∧ j < app3.visible_books.length)
      ∧ (app.filter_currently_visible bc f).cursor = app.cursor
      ∧ (app.reset_visible bc).cursor = app.cursor
      ∧ (app.sort_by bc s).cursor = app.cursor := by
  refine ⟨rfl, ?_, ?_, ?_, rfl, rfl, rfl⟩
  · simp only [App.move_by, hi] at hmv
    cases hmb : Booktop.move_by i δ app.visible_books.length with
    | none =>
      rw [hmb] at hmv
      exact absurd hmv (by simp)
    | some j =>
      rw [hmb] at hmv
      have hj := move_by_some_lt i δ app.visible_books.length j hmb
      simp only [Option.map_some', Option.some.injEq] at hmv
      rw [← hmv]
      exact ⟨j, rfl, hj⟩
  · have hmt : app.move_to (-1)
        = { app with cursor := some ((app.visible_books.length : Int) + (-1)).toNat } := by
      rw [App.move_to, if_pos (by decide : (-1 : Int) < 0)]
    rw [hmt]
    refine ⟨((app.visible_books.length : Int) + (-1)).toNat, rfl, ?_⟩
    show ((app.visible_books.length : Int) + (-1)).toNat < app.visible_books.length
    omega
  · have hlen0 : ¬ app.visible_books.length = 0 := by omega
    rw [random_jump, if_neg hlen0] at hrj
    injection hrj with hrj
    by_cases hn0 : n = 0
    · have hmt : app.move_to (n : Int) = { app with cursor := some 0 } := by
        rw [App.move_to, if_neg (by omega : ¬ (n : Int) < 0),
          if_pos (by omega : (n : Int) = 0)]
      rw [← hrj, hmt]
      exact ⟨0, rfl, hlen⟩
    · have hmt : app.move_to (n : Int)
          = { app with cursor := some ((n : Int) - 1).toNat } := by
        rw [App.move_to, if_neg (by omega : ¬ (n : Int) < 0),
          if_neg (by omega : ¬ (n : Int) = 0)]
      rw [← hrj, hmt]
      refine ⟨((n : Int) - 1).toNat, rfl, ?_⟩
      show ((n : Int) - 1).toNat < app.visible_books.length
      omega

/-- C6 witness: a completed `move_by(5)` and random jump (draw 1) on the
two-row state with cursor 0. -/
theorem cursor_behavior_witness :
    App.move_by { visible_books := [1, 2], cursor := some 0 } 5
        = some { visible_books := [1, 2], cursor := some 1 } ∧
      random_jump { visible_books := [1, 2], cursor := some 0 } 1
        = some { visible_books := [1, 2], cursor := some 0 } ∧
      (∃ j, (some 1 : Option Nat) = some j ∧ j < 2) :=
  ⟨by decide, by decide,
    (cursor_behavior bcEmpty { visible_books := [1, 2], cursor := some 0 }
      { visible_books := [1, 2], cursor := some 1 }
      { visible_books := [1, 2], cursor := some 0 } 5 0 1 fAll .Title
      (by decide) (by decide) (by decide) (by decide) (by decide)).2.1⟩

/-- C8 (amended): `tab()` cycles the focused field Title → Author → Read
→ Tags → Title, so from any field four (not three) tab presses return
focus to the same field; the read-state field is focused in the cycle,
but character input and backspace are no-ops there, so it is never
text-edited. -/
theorem book_editor_tab_cycle (b : Book) (tg : List String) (fld : BookPopupField) (c : Char) :
    (BookPopupApp.tab { book := b, tags := tg, current_field := .Title }).current_field = .Author
      ∧ (BookPopupApp.tab { book := b, tags := tg, current_field := .Author }).current_field
          = .Read
      ∧ (BookPopupApp.tab { book := b, tags := tg, current_field := .Read }).current_field
          = .Tags
      ∧ (BookPopupApp.tab { book := b, tags := tg, current_field := .Tags }).current_field
          = .Title
      ∧ (BookPopupApp.tab (BookPopupApp.tab (BookPopupApp.tab (BookPopupApp.tab
            { book := b, tags := tg, current_field := fld }))))
          = { book := b, tags := tg, current_field := fld }
      ∧ BookPopupApp.input { book := b, tags := tg, current_field := .Read } c
          = { book := b, tags := tg, current_field := .Read }
      ∧ BookPopupApp.backspace { book := b, tags := tg, current_field := .Read }
          = { book := b, tags := tg, current_field := .Read } := by
  refine ⟨rfl, rfl, rfl, rfl, ?_, rfl, rfl⟩
  cases fld <;> rfl

/-- C8 counterexample: in the book editor, three tab presses starting
from Title put the focus on Tags, not back on Title — the cycle passes
through the read-state field, so it has length four. -/
theorem three_tabs_do_not_return :
    (BookPopupApp.tab (BookPopupApp.tab (BookPopupApp.tab
        { book := bGreat, tags := [], current_field := .Title }))).current_field = .Tags ∧
      BookPopupField.Tags ≠ BookPopupField.Title := by
  decide

/-- `cmp_by` is not `Greater` exactly when the sort field is `≤`
(lexicographic on the underlying characters). -/
theorem cmp_by_ne_gt_iff (b1 b2 : Book) (s : Sorting) :
    b1.cmp_by b2 s ≠ Ordering.gt ↔ sort_key s b1 ≤ sort_key s b2 := by
  cases s <;>
    · simp only [Book.cmp_by, sort_key, compareOfLessAndEq]
      split_ifs with h1 h2
      · exact iff_of_true (by decide) (le_of_lt h1)
      · exact iff_of_true (by decide) (le_of_eq h2)
      · exact iff_of_false (fun h => h rfl) fun hle => (lt_or_eq_of_le hle).elim h1 h2

/-- C9: sorting the VisibleSet by Title or Author (over a well-formed
bookcase, every visible id existing in it) preserves membership as a set,
orders the ids ascending lexicographically on the chosen field of the
underlying Books, and leaves the cursor index unchanged. -/
theorem sort_by_membership_order_cursor (bc : Bookcase) (app : App) (s : Sorting)
    (hwf : bc.WF) (hvis : ∀ k ∈ app.visible_books, k ∈ bc.keyList) :
    (∀ k, k ∈ (app.sort_by bc s).visible_books ↔ k ∈ app.visible_books)
      ∧ (app.sort_by bc s).visible_books.Pairwise
          (fun k1 k2 => ∀ b1 b2, bc.get_book k1 = some b1 → bc.get_book k2 = some b2 →
            sort_key s b1 ≤ sort_key s b2)
      ∧ (app.sort_by bc s).cursor = app.cursor := by
  have hperm : (List.insertionSort (sortRel s) (bc.get_books_by_keys app.visible_books)).Perm
      (bc.get_books_by_keys app.visible_books) :=
    List.perm_insertionSort _ _
  have hmemb : ∀ p, p ∈ List.insertionSort (sortRel s) (bc.get_books_by_keys app.visible_books)
      → p ∈ bc.books := by
    intro p hp
    have := hperm.mem_iff.mp hp
    rw [Bookcase.get_books_by_keys, List.mem_filter] at this
    exact this.1
  refine ⟨?_, ?_, rfl⟩
  · intro k
    show k ∈ (List.insertionSort (sortRel s)
        (bc.get_books_by_keys app.visible_books)).map Prod.fst ↔ _
    rw [List.mem_map]
    constructor
    · rintro ⟨p, hp, rfl⟩
      have hp2 := hperm.mem_iff.mp hp
      rw [Bookcase.get_books_by_keys, List.mem_filter] at hp2
      exact (contains_true_iff _ _).mp hp2.2
    · intro hk
      have hkl := hvis k hk
      rw [Bookcase.keyList, List.mem_map] at hkl
      obtain ⟨p, hp, rfl⟩ := hkl
      refine ⟨p, hperm.mem_iff.mpr ?_, rfl⟩
      rw [Bookcase.get_books_by_keys, List.mem_filter]
      exact ⟨hp, (contains_true_iff _ _).mpr hk⟩
  · haveI htot : IsTotal (Nat × Book) (sortRel s) := ⟨fun p q => by
      rcases le_total (sort_key s p.2) (sort_key s q.2) with h | h
      · exact Or.inl ((cmp_by_ne_gt_iff _ _ s).mpr h)
      · exact Or.inr ((cmp_by_ne_gt_iff _ _ s).mpr h)⟩
    haveI htr : IsTrans (Nat × Book) (sortRel s) := ⟨fun p q r hpq hqr =>
      (cmp_by_ne_gt_iff _ _ s).mpr
        (le_trans ((cmp_by_ne_gt_iff _ _ s).mp hpq) ((cmp_by_ne_gt_iff _ _ s).mp hqr))⟩
    have hsorted : List.Sorted (sortRel s)
        (List.insertionSort (sortRel s) (bc.get_books_by_keys app.visible_books)) :=
      List.sorted_insertionSort _ _
    show ((List.insertionSort (sortRel s)
        (bc.get_books_by_keys app.visible_books)).map Prod.fst).Pairwise _
    rw [List.pairwise_map]
    refine List.Pairwise.imp_of_mem ?_ hsorted
    intro p q hp hq hr b1 b2 hb1 hb2
    have hlp : bc.books.lookup p.1 = some p.2 :=
      (lookup_eq_some_iff_mem bc.books hwf p.1 p.2).mpr (by rw [Prod.mk.eta]; exact hmemb p hp)
    have hlq : bc.books.lookup q.1 = some q.2 :=
      (lookup_eq_some_iff_mem bc.books hwf q.1 q.2).mpr (by rw [Prod.mk.eta]; exact hmemb q hq)
    rw [Bookcase.get_book] at hb1 hb2
    rw [hlp] at hb1
    rw [hlq] at hb2
    injection hb1 with hb1
    injection hb2 with hb2
    rw [← hb1, ← hb2]
    exact (cmp_by_ne_gt_iff _ _ s).mp hr

/-- C9 witness: sorting the scenario's `[2, 1]` by Title keeps the cursor
at index 1 and keeps id 1 visible. -/
theorem sort_by_membership_order_cursor_witness :
    bcScenario.WF ∧ (∀ k ∈ [2, 1], k ∈ bcScenario.keyList) ∧
      ((App.sort_by { visible_books := [2, 1], cursor := some 1 } bcScenario .Title).cursor
          = some 1
        ∧ (1 ∈ (App.sort_by { visible_books := [2, 1], cursor := some 1 }
            bcScenario .Title).visible_books ↔ (1 : Nat) ∈ [2, 1])) :=
  ⟨by decide, by decide,
    (sort_by_membership_order_cursor bcScenario { visible_books := [2, 1], cursor := some 1 }
        .Title (by decide) (by decide)).2.2,
    (sort_by_membership_order_cursor bcScenario { visible_books := [2, 1], cursor := some 1 }
        .Title (by decide) (by decide)).1 1⟩

end Booktop
